import Mathlib

/-!
A shallow embedding of `src/native/tab_bar.rs` (the `TabBar` widget of the
`iced_aw` crate) and proofs about its builder operations, event handling,
hover computation and layout-walking draw code.

Modelling conventions:
* `f32` scalar coordinates are modelled as `Int` (exact arithmetic; every
  property below depends only on ordering and addition of coordinates).
* The boxed message callbacks `on_select` / `on_close` are modelled by the
  messages they produce: `Msg.select id` (resp. `Msg.close id`) stands for
  the message returned by the stored `on_select` (resp. `on_close`) closure
  applied to `id`.  The presence of the optional close callback is the
  boolean field `on_close` (Rust: `self.on_close.is_some()`).
* Panics (`expect` on a missing child layout, out-of-bounds `Vec` indexing)
  are modelled by `Except String`, the string being the panic message.
* `&mut self` methods are modelled by state passing; `on_event` returns the
  resulting `TabBar` value explicitly so that its (absence of) mutation can
  be stated.
* The host framework's laid-out tree (`iced` `Layout`) is modelled as a rose
  tree of rectangles; event and draw code only walk its first two levels.
-/

namespace IcedAw

/-- `iced::Point`: a 2-D position.  `Point::default()` is the origin. -/
structure Point where
  x : Int
  y : Int
deriving DecidableEq

/-- `iced::Rectangle`: an axis-aligned rectangle given by its top-left
corner and its size. -/
structure Rectangle where
  x : Int
  y : Int
  width : Int
  height : Int
deriving DecidableEq

/-- `iced::Rectangle::contains`: the half-open containment test
`self.x <= point.x && point.x < self.x + self.width && self.y <= point.y
&& point.y < self.y + self.height`. -/
def Rectangle.contains (r : Rectangle) (p : Point) : Bool :=
  decide (r.x ≤ p.x) && decide (p.x < r.x + r.width) &&
    decide (r.y ≤ p.y) && decide (p.y < r.y + r.height)

/-- `r` is geometrically inside `R`: every point of `r` is a point of `R`.
Stated by comparing the four edges, which is decidable. -/
def SubRect (r R : Rectangle) : Prop :=
  R.x ≤ r.x ∧ R.y ≤ r.y ∧ r.x + r.width ≤ R.x + R.width ∧
    r.y + r.height ≤ R.y + R.height

instance (r R : Rectangle) : Decidable (SubRect r R) := by
  unfold SubRect; infer_instance

/-- `iced::mouse::Cursor`: the pointer is either at a known position or
unavailable. -/
inductive Cursor where
  | available : Point → Cursor
  | unavailable : Cursor
deriving DecidableEq

/-- `Cursor::position`: `Some(point)` when available, `None` otherwise. -/
def Cursor.position : Cursor → Option Point
  | .available p => some p
  | .unavailable => none

/-- `cursor.position().unwrap_or_default()`, the idiom used throughout
`on_event` and `mouse_interaction`: the pointer position, or the origin
`(0, 0)` when the pointer is unavailable. -/
def Cursor.positionOrDefault (c : Cursor) : Point :=
  c.position.getD ⟨0, 0⟩

/-- `Cursor::is_over` (used only by `draw_tab` for the hovered close icon):
`false` when the pointer is unavailable, containment otherwise. -/
def Cursor.isOver (c : Cursor) (r : Rectangle) : Bool :=
  match c.position with
  | some p => r.contains p
  | none => false

/-- The laid-out tree produced by the host layout engine: each node carries
its bounding rectangle and its children in order. -/
inductive Layout where
  | node : Rectangle → List Layout → Layout

/-- `Layout::bounds`. -/
def Layout.bounds : Layout → Rectangle
  | .node b _ => b

/-- `Layout::children` (in child order). -/
def Layout.children : Layout → List Layout
  | .node _ cs => cs

/-- `iced::mouse::Button` (only `Left` is inspected by the widget). -/
inductive MouseButton where
  | left | right | middle | other
deriving DecidableEq

/-- The mouse events relevant to the widget: a button press, or anything
else. -/
inductive MouseEvent where
  | buttonPressed : MouseButton → MouseEvent
  | other
deriving DecidableEq

/-- The touch events relevant to the widget: `FingerPressed { .. }`, or
anything else. -/
inductive TouchEvent where
  | fingerPressed
  | other
deriving DecidableEq

/-- `iced::Event` restricted to the alternatives the widget distinguishes. -/
inductive Event where
  | mouse : MouseEvent → Event
  | touch : TouchEvent → Event
  | other
deriving DecidableEq

/-- The event patterns matched by the first arm of `on_event`:
`Event::Mouse(mouse::Event::ButtonPressed(mouse::Button::Left))` or
`Event::Touch(touch::Event::FingerPressed { .. })`. -/
def Event.isPress : Event → Bool
  | .mouse (.buttonPressed .left) => true
  | .touch .fingerPressed => true
  | _ => false

/-- `event::Status`: whether the widget consumed the event. -/
inductive Status where
  | captured
  | ignored
deriving DecidableEq

/-- `iced::mouse::Interaction` restricted to the two values the widget
produces; `Interaction::default()` is `idle` and `pointer > idle`. -/
inductive Interaction where
  | idle
  | pointer
deriving DecidableEq

/-- The strict order on `Interaction` used by `mouse_interaction`
(`new_mouse_interaction > mouse_interaction`): `pointer > idle` and nothing
else. -/
def Interaction.gtI : Interaction → Interaction → Bool
  | .pointer, .idle => true
  | _, _ => false

/-- `TabLabel`: the content of one tab.  Icon glyphs are `char` in the
source, modelled as `Char`. -/
inductive TabLabel where
  | icon : Char → TabLabel
  | text : String → TabLabel
  | iconText : Char → String → TabLabel
deriving DecidableEq

/-- The message a tab-bar callback produces: `select id` is the result of
the mandatory `on_select` closure, `close id` the result of the optional
`on_close` closure. -/
inductive Msg (TabId : Type) where
  | select : TabId → Msg TabId
  | close : TabId → Msg TabId
deriving DecidableEq

/-- `iced::Length` (sizing strategies). -/
inductive Length where
  | fill
  | fillPortion : Nat → Length
  | shrink
  | fixed : Int → Length
deriving DecidableEq

/-- A font handle; its contents are irrelevant to every property below. -/
structure Font where
  id : Nat
deriving DecidableEq

/-- The `TabBar` widget state.  The two callback fields of the source are
represented by `on_close : Bool` (presence of the close callback; the
mandatory `on_select` callback carries no state beyond producing
`Msg.select`).  The opaque style token is modelled as a `Nat`. -/
structure TabBar (TabId : Type) where
  active_tab : Nat
  tab_labels : List TabLabel
  tab_indices : List TabId
  on_close : Bool
  width : Length
  tab_width : Length
  height : Length
  max_height : Int
  icon_size : Int
  text_size : Int
  close_size : Int
  padding : Int
  spacing : Int
  icon_font : Option Font
  text_font : Option Font
  style : Nat
deriving DecidableEq

/-- `Iterator::position`: index of the first element satisfying `p`. -/
def position (p : α → Bool) : List α → Option Nat
  | [] => none
  | x :: xs => if p x then some 0 else (position p xs).map (· + 1)

/-- `TabBar::with_tab_labels`: ids and labels are split out of the same
input list; every configuration field takes its default. -/
def with_tab_labels {TabId : Type} (tabLabels : List (TabId × TabLabel)) :
    TabBar TabId where
  active_tab := 0
  tab_indices := tabLabels.map Prod.fst
  tab_labels := tabLabels.map Prod.snd
  on_close := false
  width := .fill
  tab_width := .fill
  height := .shrink
  max_height := 4294967295
  icon_size := 32
  text_size := 16
  close_size := 16
  padding := 5
  spacing := 0
  icon_font := none
  text_font := none
  style := 0

/-- `TabBar::new`: `with_tab_labels` on the empty list. -/
def TabBar.new {TabId : Type} : TabBar TabId :=
  with_tab_labels []

/-- `TabBar::get_active_tab_idx`. -/
def TabBar.get_active_tab_idx {TabId : Type} (tb : TabBar TabId) : Nat :=
  tb.active_tab

/-- `TabBar::get_active_tab_id`: `self.tab_indices.get(self.active_tab)`. -/
def TabBar.get_active_tab_id {TabId : Type} (tb : TabBar TabId) :
    Option TabId :=
  tb.tab_indices.get? tb.active_tab

/-- `TabBar::size`: `self.tab_indices.len()`. -/
def TabBar.size {TabId : Type} (tb : TabBar TabId) : Nat :=
  tb.tab_indices.length

/-- `TabBar::push`: append the label and the id. -/
def TabBar.push {TabId : Type} (tb : TabBar TabId) (id : TabId)
    (tabLabel : TabLabel) : TabBar TabId :=
  { tb with
    tab_labels := tb.tab_labels ++ [tabLabel]
    tab_indices := tb.tab_indices ++ [id] }

/-- `TabBar::set_active_tab`:
`self.tab_indices.iter().position(|id| id == active_tab).map_or(0, |a| a)`. -/
def TabBar.set_active_tab {TabId : Type} [DecidableEq TabId]
    (tb : TabBar TabId) (activeTab : TabId) : TabBar TabId :=
  { tb with
    active_tab := (position (fun id => decide (id = activeTab))
      tb.tab_indices).getD 0 }

/-- `TabBar::on_close`: registering the close callback. -/
def TabBar.set_on_close {TabId : Type} (tb : TabBar TabId) : TabBar TabId :=
  { tb with on_close := true }

/-- `TabBar::width`. -/
def TabBar.set_width {TabId : Type} (tb : TabBar TabId) (w : Length) :
    TabBar TabId :=
  { tb with width := w }

/-- `TabBar::tab_width`. -/
def TabBar.set_tab_width {TabId : Type} (tb : TabBar TabId) (w : Length) :
    TabBar TabId :=
  { tb with tab_width := w }

/-- `TabBar::height`. -/
def TabBar.set_height {TabId : Type} (tb : TabBar TabId) (h : Length) :
    TabBar TabId :=
  { tb with height := h }

/-- `TabBar::max_height`. -/
def TabBar.set_max_height {TabId : Type} (tb : TabBar TabId) (h : Int) :
    TabBar TabId :=
  { tb with max_height := h }

/-- `TabBar::icon_size`. -/
def TabBar.set_icon_size {TabId : Type} (tb : TabBar TabId) (s : Int) :
    TabBar TabId :=
  { tb with icon_size := s }

/-- `TabBar::text_size`. -/
def TabBar.set_text_size {TabId : Type} (tb : TabBar TabId) (s : Int) :
    TabBar TabId :=
  { tb with text_size := s }

/-- `TabBar::close_size`. -/
def TabBar.set_close_size {TabId : Type} (tb : TabBar TabId) (s : Int) :
    TabBar TabId :=
  { tb with close_size := s }

/-- `TabBar::padding`. -/
def TabBar.set_padding {TabId : Type} (tb : TabBar TabId) (s : Int) :
    TabBar TabId :=
  { tb with padding := s }

/-- `TabBar::spacing`. -/
def TabBar.set_spacing {TabId : Type} (tb : TabBar TabId) (s : Int) :
    TabBar TabId :=
  { tb with spacing := s }

/-- `TabBar::icon_font`. -/
def TabBar.set_icon_font {TabId : Type} (tb : TabBar TabId) (f : Font) :
    TabBar TabId :=
  { tb with icon_font := some f }

/-- `TabBar::text_font`. -/
def TabBar.set_text_font {TabId : Type} (tb : TabBar TabId) (f : Font) :
    TabBar TabId :=
  { tb with text_font := some f }

/-- `TabBar::style`. -/
def TabBar.set_style {TabId : Type} (tb : TabBar TabId) (s : Nat) :
    TabBar TabId :=
  { tb with style := s }

/-- The body of the press arm of `on_event` (both matched patterns run this
same code).  Mirrors the source line by line: outer-bounds test, `tabs_map`
of per-child containment tests, `position` of the first hit, then the
`on_close.as_ref().filter(..).map_or_else(select, close)` message choice.
The `expect` calls and the `self.tab_indices[new_selected]` indexing are
the `Except.error` alternatives. -/
def press_body {TabId : Type} (tb : TabBar TabId) (lay : Layout)
    (cursor : Cursor) :
    Except String (TabBar TabId × Status × Option (Msg TabId)) :=
  if lay.bounds.contains cursor.positionOrDefault then
    let tabs_map : List Bool :=
      lay.children.map (fun l => l.bounds.contains cursor.positionOrDefault)
    match position (fun b => b) tabs_map with
    | some new_selected =>
      if tb.on_close then
        match lay.children.get? new_selected with
        | none =>
          .error "Native: Layout should have a tab layout at the selected index"
        | some tab_layout =>
          match tab_layout.children.get? 1 with
          | none => .error "Native: Layout should have a close layout"
          | some cross_layout =>
            match tb.tab_indices.get? new_selected with
            | none => .error "index out of bounds"
            | some id =>
              .ok (tb, .captured,
                some (if cross_layout.bounds.contains cursor.positionOrDefault
                  then .close id else .select id))
      else
        match tb.tab_indices.get? new_selected with
        | none => .error "index out of bounds"
        | some id => .ok (tb, .captured, some (.select id))
    | none => .ok (tb, .ignored, none)
  else .ok (tb, .ignored, none)

/-- `Widget::on_event` for `TabBar`.  The result carries the (unchanged)
widget state, the returned `event::Status` and the message published to the
shell, if any; `Except.error` models a panic. -/
def on_event {TabId : Type} (tb : TabBar TabId) (event : Event)
    (lay : Layout) (cursor : Cursor) :
    Except String (TabBar TabId × Status × Option (Msg TabId)) :=
  match event with
  | .mouse (.buttonPressed .left) => press_body tb lay cursor
  | .touch .fingerPressed => press_body tb lay cursor
  | _ => .ok (tb, .ignored, none)

/-- `Widget::mouse_interaction` for `TabBar`: fold over the top-level
children keeping the largest interaction seen (`pointer` for a child whose
bounds contain the pointer position, `idle` otherwise). -/
def mouse_interaction (lay : Layout) (cursor : Cursor) : Interaction :=
  lay.children.foldl
    (fun mi l =>
      let newMi := if l.bounds.contains cursor.positionOrDefault then
        Interaction.pointer else Interaction.idle
      if newMi.gtI mi then newMi else mi)
    Interaction.idle

/-- The layout walking of the free function `draw_tab` (the rendering calls
themselves produce no observable value here): take the first child as the
label layout, consume its children as dictated by the label variant, each
`expect` being an `Except.error`; the trailing close child is read with
`if let Some(..)` and can never panic. -/
def draw_tab (tab : TabLabel) (lay : Layout) : Except String Unit :=
  match lay.children.get? 0 with
  | none => .error "Graphics: Layout should have a label layout"
  | some label_layout =>
    match tab with
    | .icon _ =>
      match label_layout.children.get? 0 with
      | none => .error "Graphics: Layout should have an icon layout for an Icon"
      | some _ => .ok ()
    | .text _ =>
      match label_layout.children.get? 0 with
      | none => .error "Graphics: Layout should have a text layout for a Text"
      | some _ => .ok ()
    | .iconText _ _ =>
      match label_layout.children.get? 0 with
      | none =>
        .error "Graphics: Layout should have an icons layout for an IconText"
      | some _ =>
        match label_layout.children.get? 1 with
        | none =>
          .error "Graphics: Layout should have a text layout for an IconText"
        | some _ => .ok ()

/-- Whether an `on_event` outcome consumed the event (`Status.captured`). -/
def captures {TabId : Type}
    (r : Except String (TabBar TabId × Status × Option (Msg TabId))) : Bool :=
  match r with
  | .ok (_, .captured, _) => true
  | _ => false

/-- How many children the label column built by `Widget::layout` has:
one for `Icon` (the inner icon row) and for `Text` (the text), two for
`IconText` (icon row then text). -/
def labelChildCount : TabLabel → Nat
  | .icon _ => 1
  | .text _ => 1
  | .iconText _ _ => 2

/-- The shape of one per-tab layout node produced by `Widget::layout`: the
label column, followed by the close slot exactly when the close callback is
registered, the label column having `labelChildCount` children. -/
def tabShapeChk (hasClose : Bool) (label : TabLabel) (t : Layout) : Bool :=
  (t.children.length == if hasClose then 2 else 1) &&
    match t.children.get? 0 with
    | some labL => labL.children.length == labelChildCount label
    | none => false

/-- The shape of the whole layout tree produced by `Widget::layout` for a
given widget: one top-level child per tab label, each of the per-tab shape
above. -/
def layoutShapeChk {TabId : Type} (tb : TabBar TabId) (lay : Layout) :
    Bool :=
  (lay.children.length == tb.tab_labels.length) &&
    (tb.tab_labels.zip lay.children).all
      (fun pair => tabShapeChk tb.on_close pair.1 pair.2)

/-- The geometric and structural facts about a laid-out tree that the
framework guarantees and the event code relies on: one top-level child per
tab entry, each child rectangle inside the widget bounds, and — when the
close callback is registered — a second (close) child inside every per-tab
node. -/
def EventWF {TabId : Type} (tb : TabBar TabId) (lay : Layout) : Prop :=
  lay.children.length = tb.tab_indices.length ∧
    (∀ c ∈ lay.children, SubRect c.bounds lay.bounds) ∧
    (tb.on_close = true → ∀ c ∈ lay.children, 1 < c.children.length)

instance {TabId : Type} (tb : TabBar TabId) (lay : Layout) :
    Decidable (EventWF tb lay) := by
  unfold EventWF; infer_instance

/-- The `TabBar` values reachable through the public builder surface:
construction by `new` or `with_tab_labels` followed by any sequence of
`push`, `set_active_tab` and the configuration setters. -/
inductive Reachable {TabId : Type} [DecidableEq TabId] :
    TabBar TabId → Prop where
  | base_new : Reachable .new
  | base_with_tab_labels (ls : List (TabId × TabLabel)) :
      Reachable (with_tab_labels ls)
  | step_push {tb : TabBar TabId} (id : TabId) (lab : TabLabel) :
      Reachable tb → Reachable (tb.push id lab)
  | step_set_active_tab {tb : TabBar TabId} (id : TabId) :
      Reachable tb → Reachable (tb.set_active_tab id)
  | step_on_close {tb : TabBar TabId} :
      Reachable tb → Reachable tb.set_on_close
  | step_width {tb : TabBar TabId} (w : Length) :
      Reachable tb → Reachable (tb.set_width w)
  | step_tab_width {tb : TabBar TabId} (w : Length) :
      Reachable tb → Reachable (tb.set_tab_width w)
  | step_height {tb : TabBar TabId} (h : Length) :
      Reachable tb → Reachable (tb.set_height h)
  | step_max_height {tb : TabBar TabId} (h : Int) :
      Reachable tb → Reachable (tb.set_max_height h)
  | step_icon_size {tb : TabBar TabId} (s : Int) :
      Reachable tb → Reachable (tb.set_icon_size s)
  | step_text_size {tb : TabBar TabId} (s : Int) :
      Reachable tb → Reachable (tb.set_text_size s)
  | step_close_size {tb : TabBar TabId} (s : Int) :
      Reachable tb → Reachable (tb.set_close_size s)
  | step_padding {tb : TabBar TabId} (s : Int) :
      Reachable tb → Reachable (tb.set_padding s)
  | step_spacing {tb : TabBar TabId} (s : Int) :
      Reachable tb → Reachable (tb.set_spacing s)
  | step_icon_font {tb : TabBar TabId} (f : Font) :
      Reachable tb → Reachable (tb.set_icon_font f)
  | step_text_font {tb : TabBar TabId} (f : Font) :
      Reachable tb → Reachable (tb.set_text_font f)
  | step_style {tb : TabBar TabId} (s : Nat) :
      Reachable tb → Reachable (tb.set_style s)

/-- A concrete tab bar used by the witnesses below: two text tabs with ids
`1` and `2`, no close callback. -/
def tbW : TabBar Nat :=
  (TabBar.new.push 1 (.text "One")).push 2 (.text "Two")

/-- `tbW` with the close callback registered. -/
def tbC : TabBar Nat :=
  tbW.set_on_close

/-- A laid-out tree matching `tbW` (no close slots): two tab nodes, each
holding one label column holding one text node. -/
def layW : Layout :=
  .node ⟨0, 0, 100, 20⟩
    [.node ⟨0, 0, 50, 20⟩ [.node ⟨0, 0, 50, 20⟩ [.node ⟨5, 5, 40, 10⟩ []]],
     .node ⟨50, 0, 50, 20⟩
       [.node ⟨50, 0, 50, 20⟩ [.node ⟨55, 5, 40, 10⟩ []]]]

/-- A laid-out tree matching `tbC` (with close slots): two tab nodes, each
holding a label column (with one text node) and a close node. -/
def layC : Layout :=
  .node ⟨0, 0, 100, 20⟩
    [.node ⟨0, 0, 50, 20⟩
       [.node ⟨0, 0, 33, 20⟩ [.node ⟨5, 5, 23, 10⟩ []],
        .node ⟨33, 2, 17, 17⟩ []],
     .node ⟨50, 0, 50, 20⟩
       [.node ⟨50, 0, 33, 20⟩ [.node ⟨55, 5, 23, 10⟩ []],
        .node ⟨83, 2, 17, 17⟩ []]]

theorem SubRect.contains_mono {r R : Rectangle} (h : SubRect r R) {p : Point}
    (hp : r.contains p = true) : R.contains p = true := by
  obtain ⟨h1, h2, h3, h4⟩ := h
  simp only [Rectangle.contains, Bool.and_eq_true, decide_eq_true_eq] at hp ⊢
  obtain ⟨⟨⟨a1, a2⟩, a3⟩, a4⟩ := hp
  exact ⟨⟨⟨by omega, by omega⟩, by omega⟩, by omega⟩

theorem position_eq_none {α : Type u} {p : α → Bool} {l : List α} :
    position p l = none ↔ ∀ x ∈ l, p x = false := by
  induction l with
  | nil => simp [position]
  | cons a as ih =>
    by_cases hp : p a <;>
      simp [position, hp, Option.map_eq_none, ih]

theorem position_spec_some {α : Type u} {p : α → Bool} {l : List α}
    {k : Nat} (h : position p l = some k) :
    ∃ x, l.get? k = some x ∧ p x = true ∧
      ∀ j, j < k → ∀ y, l.get? j = some y → p y = false := by
  induction l generalizing k with
  | nil => simp [position] at h
  | cons a as ih =>
    by_cases hp : p a
    · simp [position, hp] at h
      subst h
      exact ⟨a, rfl, hp, by omega⟩
    · simp [position, hp, Option.map_eq_some] at h
      obtain ⟨k', hk', rfl⟩ := h
      obtain ⟨x, hget, hpx, hmin⟩ := ih hk'
      refine ⟨x, by simpa using hget, hpx, ?_⟩
      intro j hj y hy
      cases j with
      | zero =>
        simp only [List.get?_cons_zero, Option.some_inj] at hy
        subst hy
        simpa using hp
      | succ j' =>
        simp only [List.get?_cons_succ] at hy
        exact hmin j' (by omega) y hy

theorem position_isSome_of_mem {α : Type u} {p : α → Bool} {l : List α}
    {x : α} (hx : x ∈ l) (hp : p x = true) : (position p l).isSome = true := by
  induction l with
  | nil => cases hx
  | cons a as ih =>
    by_cases hpa : p a
    · simp [position, hpa]
    · rcases List.mem_cons.mp hx with rfl | hmem
      · exact absurd hp hpa
      · simp only [position, hpa, ite_false]
        cases hpos : position p as with
        | none => exact absurd (ih hmem) (by simp [hpos])
        | some k => simp [hpos]

theorem position_map {α : Type u} {β : Type v} {f : α → β} {p : β → Bool}
    {l : List α} :
    position p (l.map f) = position (fun x => p (f x)) l := by
  induction l with
  | nil => rfl
  | cons a as ih => simp only [List.map_cons, position, ih]

theorem position_lt_length {α : Type u} {p : α → Bool} {l : List α}
    {k : Nat} (h : position p l = some k) : k < l.length := by
  obtain ⟨x, hget, -, -⟩ := position_spec_some h
  exact List.get?_eq_some.mp hget |>.1

theorem on_event_press {TabId : Type} (tb : TabBar TabId) {event : Event}
    (lay : Layout) (cursor : Cursor) (hev : event.isPress = true) :
    on_event tb event lay cursor = press_body tb lay cursor := by
  cases event with
  | mouse me =>
    cases me with
    | buttonPressed b => cases b <;> simp_all [Event.isPress, on_event]
    | other => simp [Event.isPress] at hev
  | touch te => cases te <;> simp_all [Event.isPress, on_event]
  | other => simp [Event.isPress] at hev

/-- Claim C2: after `set_active_tab id`, `active_tab` is the position of
the first entry whose id equals `id`, or `0` if no entry matches; the
absent case raises no error (the function is total). -/
theorem c2_set_active_tab_first_match {TabId : Type} [DecidableEq TabId]
    (tb : TabBar TabId) (id : TabId) :
    (∃ k, tb.tab_indices.get? k = some id ∧
        (∀ j, j < k → tb.tab_indices.get? j ≠ some id) ∧
        (tb.set_active_tab id).active_tab = k) ∨
      (id ∉ tb.tab_indices ∧ (tb.set_active_tab id).active_tab = 0) := by
  cases hpos : position (fun x => decide (x = id)) tb.tab_indices with
  | none =>
    refine Or.inr ⟨?_, by simp [TabBar.set_active_tab, hpos]⟩
    intro hmem
    have hs : (position (fun x => decide (x = id)) tb.tab_indices).isSome =
        true := position_isSome_of_mem hmem (by simp)
    rw [hpos] at hs
    cases hs
  | some k =>
    obtain ⟨x, hget, hpx, hmin⟩ := position_spec_some hpos
    have hx : x = id := of_decide_eq_true hpx
    subst hx
    refine Or.inl ⟨k, hget, ?_, by simp [TabBar.set_active_tab, hpos]⟩
    intro j hj hcontra
    have := hmin j hj x hcontra
    simp at this

/-- Claim C7: round-trip — if some entry has the given id, then reading
`get_active_tab_id` after `set_active_tab id` returns that id. -/
theorem c7_set_get_round_trip {TabId : Type} [DecidableEq TabId]
    (tb : TabBar TabId) (id : TabId) (h : id ∈ tb.tab_indices) :
    (tb.set_active_tab id).get_active_tab_id = some id := by
  have hsome : (position (fun x => decide (x = id)) tb.tab_indices).isSome =
      true := position_isSome_of_mem h (by simp)
  cases hpos : position (fun x => decide (x = id)) tb.tab_indices with
  | none => rw [hpos] at hsome; cases hsome
  | some k =>
    obtain ⟨x, hget, hpx, -⟩ := position_spec_some hpos
    have hx : x = id := of_decide_eq_true hpx
    subst hx
    simp only [TabBar.get_active_tab_id, TabBar.set_active_tab]
    rw [hpos]
    exact hget

/-- Witness for C7 at a concrete input: `tbW` holds ids `[1, 2]` and the
round-trip on id `2` yields `2`. -/
theorem c7_set_get_round_trip_witness :
    2 ∈ tbW.tab_indices ∧
      (tbW.set_active_tab 2).get_active_tab_id = some 2 :=
  ⟨by decide, c7_set_get_round_trip tbW 2 (by decide)⟩

theorem reachable_strong_inv {TabId : Type} [DecidableEq TabId]
    {tb : TabBar TabId} (h : Reachable tb) :
    tb.active_tab < tb.tab_indices.length ∨
      (tb.tab_indices.length = 0 ∧ tb.active_tab = 0) := by
  induction h with
  | base_new => exact Or.inr ⟨rfl, rfl⟩
  | base_with_tab_labels ls =>
    cases ls with
    | nil => exact Or.inr ⟨rfl, rfl⟩
    | cons a as => exact Or.inl (by simp [with_tab_labels])
  | step_push id lab hr ih =>
    rcases ih with h1 | ⟨h1, h2⟩
    · exact Or.inl (by simp [TabBar.push]; omega)
    · exact Or.inl (by simp [TabBar.push, h2])
  | step_set_active_tab id hr ih =>
    rename_i tb'
    cases hpos : position (fun x => decide (x = id)) tb'.tab_indices with
    | none =>
      by_cases hlen : tb'.tab_indices.length = 0
      · exact Or.inr ⟨hlen, by simp [TabBar.set_active_tab, hpos]⟩
      · refine Or.inl ?_
        simp only [TabBar.set_active_tab, hpos, Option.getD_none]
        omega
    | some k =>
      refine Or.inl ?_
      have := position_lt_length hpos
      simpa [TabBar.set_active_tab, hpos] using this
  | step_on_close hr ih => exact ih
  | step_width w hr ih => exact ih
  | step_tab_width w hr ih => exact ih
  | step_height h hr ih => exact ih
  | step_max_height h hr ih => exact ih
  | step_icon_size s hr ih => exact ih
  | step_text_size s hr ih => exact ih
  | step_close_size s hr ih => exact ih
  | step_padding s hr ih => exact ih
  | step_spacing s hr ih => exact ih
  | step_icon_font f hr ih => exact ih
  | step_text_font f hr ih => exact ih
  | step_style s hr ih => exact ih

/-- Claim C4: on every `TabBar` reachable through the public operations,
`active_tab` is a valid index into the tab sequence, or the sequence is
empty. -/
theorem c4_active_tab_valid {TabId : Type} [DecidableEq TabId]
    {tb : TabBar TabId} (h : Reachable tb) :
    tb.active_tab < tb.tab_indices.length ∨ tb.tab_indices.length = 0 := by
  rcases reachable_strong_inv h with h1 | ⟨h1, -⟩
  · exact Or.inl h1
  · exact Or.inr h1

/-- Witness for C4 at a concrete reachable value, built by `new` and two
`push` steps. -/
theorem c4_active_tab_valid_witness :
    tbW.active_tab < tbW.tab_indices.length ∨ tbW.tab_indices.length = 0 :=
  c4_active_tab_valid
    (Reachable.step_push 2 (.text "Two")
      (Reachable.step_push 1 (.text "One") Reachable.base_new))

/-- Claim C10: on every reachable `TabBar`, the labels vector and the ids
vector have the same length, `size` counts both, and every index below
`size` carries both an id and a label. -/
theorem c10_labels_ids_same_length {TabId : Type} [DecidableEq TabId]
    {tb : TabBar TabId} (h : Reachable tb) :
    tb.tab_labels.length = tb.tab_indices.length ∧
      tb.size = tb.tab_labels.length ∧
      ∀ i, i < tb.size →
        (tb.tab_indices.get? i).isSome = true ∧
          (tb.tab_labels.get? i).isSome = true := by
  have key : tb.tab_labels.length = tb.tab_indices.length := by
    induction h with
    | base_new => rfl
    | base_with_tab_labels ls => simp [with_tab_labels]
    | step_push id lab hr ih => simp [TabBar.push]; omega
    | step_set_active_tab id hr ih => exact ih
    | step_on_close hr ih => exact ih
    | step_width w hr ih => exact ih
    | step_tab_width w hr ih => exact ih
    | step_height h hr ih => exact ih
    | step_max_height h hr ih => exact ih
    | step_icon_size s hr ih => exact ih
    | step_text_size s hr ih => exact ih
    | step_close_size s hr ih => exact ih
    | step_padding s hr ih => exact ih
    | step_spacing s hr ih => exact ih
    | step_icon_font f hr ih => exact ih
    | step_text_font f hr ih => exact ih
    | step_style s hr ih => exact ih
  refine ⟨key, by simp [TabBar.size, key], ?_⟩
  intro i hi
  constructor
  · rw [Option.isSome_iff_exists]
    exact ⟨_, List.get?_eq_get hi⟩
  · rw [Option.isSome_iff_exists]
    have : i < tb.tab_labels.length := by
      simp only [TabBar.size] at hi
      omega
    exact ⟨_, List.get?_eq_get this⟩

/-- Witness for C10 at the same concrete reachable value. -/
theorem c10_labels_ids_same_length_witness :
    tbW.tab_labels.length = tbW.tab_indices.length ∧
      tbW.size = tbW.tab_labels.length ∧
      ∀ i, i < tbW.size →
        (tbW.tab_indices.get? i).isSome = true ∧
          (tbW.tab_labels.get? i).isSome = true :=
  c10_labels_ids_same_length
    (Reachable.step_push 2 (.text "Two")
      (Reachable.step_push 1 (.text "One") Reachable.base_new))

/-- Claim C5: an absent pointer position is treated as the origin `(0, 0)`
for all hit-tests — `on_event` and `mouse_interaction` with an unavailable
cursor behave exactly as with the pointer at the origin. -/
theorem c5_no_pointer_is_origin {TabId : Type} (tb : TabBar TabId)
    (event : Event) (lay : Layout) :
    on_event tb event lay .unavailable =
        on_event tb event lay (.available ⟨0, 0⟩) ∧
      mouse_interaction lay .unavailable =
        mouse_interaction lay (.available ⟨0, 0⟩) := by
  constructor
  · cases event with
    | mouse me =>
      cases me with
      | buttonPressed b => cases b <;> rfl
      | other => rfl
    | touch te => cases te <;> rfl
    | other => rfl
  · rfl

theorem mi_foldl (c : Cursor) (ls : List Layout) (a : Interaction) :
    ls.foldl
      (fun mi l =>
        let newMi := if l.bounds.contains c.positionOrDefault then
          Interaction.pointer else Interaction.idle
        if newMi.gtI mi then newMi else mi) a =
      if a = Interaction.pointer ∨
          ls.any (fun l => l.bounds.contains c.positionOrDefault) = true then
        Interaction.pointer
      else Interaction.idle := by
  induction ls generalizing a with
  | nil => cases a <;> simp
  | cons l ls ih =>
    simp only [List.foldl_cons, ih, List.any_cons]
    cases a <;>
      by_cases hc : l.bounds.contains c.positionOrDefault = true <;>
        simp [Interaction.gtI, hc]

/-- Claim C6: `mouse_interaction` yields the `pointer` affordance exactly
when the pointer position lies inside some top-level per-tab rectangle,
and the default (`idle`) affordance otherwise; the stated equation depends
only on the layout and the pointer position (no other state occurs in it). -/
theorem c6_hover_affordance (lay : Layout) (p : Point) :
    mouse_interaction lay (.available p) =
        (if lay.children.any (fun c => c.bounds.contains p) = true then
          Interaction.pointer else Interaction.idle) ∧
      (mouse_interaction lay (.available p) = Interaction.pointer ↔
        ∃ c ∈ lay.children, c.bounds.contains p = true) := by
  have h := mi_foldl (.available p) lay.children Interaction.idle
  have hpt : Cursor.positionOrDefault (.available p) = p := rfl
  rw [hpt] at h
  have heq : mouse_interaction lay (.available p) =
      (if lay.children.any (fun c => c.bounds.contains p) = true then
        Interaction.pointer else Interaction.idle) := by
    unfold mouse_interaction
    rw [hpt, h]
    simp
  refine ⟨heq, ?_⟩
  rw [heq]
  by_cases hany : lay.children.any (fun c => c.bounds.contains p) = true
  · simpa [hany, List.any_eq_true] using (List.any_eq_true.mp hany)
  · simp only [hany, if_false]
    constructor
    · intro hcontra; cases hcontra
    · intro hex
      exact absurd (List.any_eq_true.mpr hex) hany

theorem press_body_state {TabId : Type} {tb tb' : TabBar TabId}
    {lay : Layout} {cursor : Cursor} {s : Status} {m : Option (Msg TabId)}
    (h : press_body tb lay cursor = .ok (tb', s, m)) : tb' = tb := by
  rw [press_body.eq_def] at h
  dsimp only at h
  by_cases h1 : lay.bounds.contains cursor.positionOrDefault = true
  · rw [if_pos h1] at h
    cases hpos : position (fun b => b)
        (List.map (fun l => l.bounds.contains cursor.positionOrDefault)
          lay.children) with
    | none => rw [hpos] at h; simp_all
    | some k =>
      rw [hpos] at h
      dsimp only at h
      by_cases h2 : tb.on_close = true
      · rw [if_pos h2] at h
        cases hg : lay.children.get? k with
        | none => rw [hg] at h; simp_all
        | some tabL =>
          rw [hg] at h
          dsimp only at h
          cases hc : tabL.children.get? 1 with
          | none => rw [hc] at h; simp_all
          | some crossL =>
            rw [hc] at h
            dsimp only at h
            cases hi : tb.tab_indices.get? k with
            | none => rw [hi] at h; simp_all
            | some id => rw [hi] at h; simp_all
      · rw [if_neg h2] at h
        cases hi : tb.tab_indices.get? k with
        | none => rw [hi] at h; simp_all
        | some id => rw [hi] at h; simp_all
  · rw [if_neg h1] at h
    simp_all

/-- Counterexample to claim C8: a left press at `(60, 10)` lies inside tab
index `1` of `layW`, so `on_event` handles it (it captures the event and
publishes the selection of id `2`), yet the returned `TabBar` value is the
unchanged input — in particular `active_tab` stays `0` instead of being
mutated to the selected index. -/
theorem c8_counterexample :
    on_event tbW (.mouse (.buttonPressed .left)) layW (.available ⟨60, 10⟩) =
        .ok (tbW, .captured, some (.select 2)) ∧
      tbW.active_tab = 0 :=
  ⟨rfl, rfl⟩

/-- Claim C8 as amended: `on_event` modifies no field of the `TabBar` at
all — whenever it returns normally, the resulting widget state is exactly
the input state; selection is communicated only through the published
message. -/
theorem c8_on_event_mutates_nothing {TabId : Type} (tb : TabBar TabId)
    (event : Event) (lay : Layout) (cursor : Cursor)
    (tb' : TabBar TabId) (s : Status) (m : Option (Msg TabId))
    (h : on_event tb event lay cursor = .ok (tb', s, m)) : tb' = tb := by
  cases event with
  | mouse me =>
    cases me with
    | buttonPressed b =>
      cases b with
      | left => exact press_body_state h
      | right => simp only [on_event] at h; simp_all
      | middle => simp only [on_event] at h; simp_all
      | other => simp only [on_event] at h; simp_all
    | other => simp only [on_event] at h; simp_all
  | touch te =>
    cases te with
    | fingerPressed => exact press_body_state h
    | other => simp only [on_event] at h; simp_all
  | other => simp only [on_event] at h; simp_all

/-- Witness for the amended C8 at a concrete input: the press handled in
the counterexample indeed returns the input state. -/
theorem c8_on_event_mutates_nothing_witness :
    on_event tbW (.mouse (.buttonPressed .left)) layW (.available ⟨60, 10⟩) =
        .ok (tbW, .captured, some (.select 2)) ∧
      tbW = tbW :=
  ⟨rfl, c8_on_event_mutates_nothing tbW (.mouse (.buttonPressed .left)) layW
    (.available ⟨60, 10⟩) tbW .captured (some (.select 2)) rfl⟩

theorem mem_of_get?_eq_some {α : Type u} {l : List α} {n : Nat} {a : α}
    (h : l.get? n = some a) : a ∈ l := by
  obtain ⟨hlt, hEq⟩ := List.get?_eq_some.mp h
  exact hEq ▸ List.get_mem l n hlt

/-- Claim C1: a primary press whose pointer lies inside the rectangle of
the tab at index `k` (the first top-level child containing the pointer, in
a layout whose children lie inside the widget bounds) captures the event
and publishes the close message when the close callback is registered and
the pointer also lies in that tab's close sub-rectangle (second child),
and the select message otherwise. -/
theorem c1_press_select_or_close {TabId : Type} (tb : TabBar TabId)
    (event : Event) (lay : Layout) (p : Point) (k : Nat) (id : TabId)
    (tabL crossL : Layout)
    (hev : event.isPress = true)
    (hfirst : position (fun l => l.bounds.contains p) lay.children = some k)
    (hsub : ∀ c ∈ lay.children, SubRect c.bounds lay.bounds)
    (htab : lay.children.get? k = some tabL)
    (hid : tb.tab_indices.get? k = some id)
    (hcross : tb.on_close = true → tabL.children.get? 1 = some crossL) :
    on_event tb event lay (.available p) =
      .ok (tb, .captured,
        some (if tb.on_close && crossL.bounds.contains p then
          Msg.close id else Msg.select id)) := by
  rw [on_event_press tb lay (.available p) hev]
  obtain ⟨c0, hc0get, hc0p, -⟩ := position_spec_some hfirst
  have hc0 : c0 = tabL := by
    rw [htab] at hc0get
    exact (Option.some_inj.mp hc0get).symm
  subst hc0
  have houter : lay.bounds.contains p = true :=
    (hsub c0 (mem_of_get?_eq_some htab)).contains_mono hc0p
  have hpos : position (fun b => b)
      (List.map (fun l => l.bounds.contains p) lay.children) = some k := by
    rw [position_map]
    exact hfirst
  have hpt : Cursor.positionOrDefault (.available p) = p := rfl
  rw [press_body.eq_def]
  dsimp only
  rw [hpt, if_pos houter, hpos]
  dsimp only
  by_cases hoc : tb.on_close = true
  · rw [if_pos hoc, htab]
    dsimp only
    rw [hcross hoc]
    dsimp only
    rw [hid]
    simp [hoc]
  · have hocf : tb.on_close = false := by
      revert hoc; cases tb.on_close <;> simp
    rw [if_neg hoc, hid]
    simp [hocf]

/-- Witness for C1 at a concrete input: a press at `(40, 10)` inside the
close sub-rectangle of tab index `0` of `layC` on `tbC` (close callback
registered). -/
theorem c1_press_select_or_close_witness :
    on_event tbC (.mouse (.buttonPressed .left)) layC (.available ⟨40, 10⟩) =
      .ok (tbC, .captured,
        some (if tbC.on_close &&
            (Layout.node ⟨33, 2, 17, 17⟩ []).bounds.contains ⟨40, 10⟩ then
          Msg.close 1 else Msg.select 1)) :=
  c1_press_select_or_close tbC (.mouse (.buttonPressed .left)) layC
    ⟨40, 10⟩ 0 1
    (.node ⟨0, 0, 50, 20⟩
      [.node ⟨0, 0, 33, 20⟩ [.node ⟨5, 5, 23, 10⟩ []],
       .node ⟨33, 2, 17, 17⟩ []])
    (.node ⟨33, 2, 17, 17⟩ [])
    rfl (by decide) (by decide) rfl rfl (fun _ => rfl)

/-- Claim C3: a primary press outside all top-level per-tab rectangles
publishes no message and leaves the event ignored; the event is captured
exactly when some per-tab rectangle contains the pointer. -/
theorem c3_capture_iff_tab_hit {TabId : Type} (tb : TabBar TabId)
    (event : Event) (lay : Layout) (p : Point)
    (hev : event.isPress = true) (hwf : EventWF tb lay) :
    ((∀ c ∈ lay.children, c.bounds.contains p = false) →
        on_event tb event lay (.available p) = .ok (tb, .ignored, none)) ∧
      captures (on_event tb event lay (.available p)) =
        lay.children.any (fun c => c.bounds.contains p) := by
  obtain ⟨hlen, hsub, hclose⟩ := hwf
  rw [on_event_press tb lay (.available p) hev]
  have hpt : Cursor.positionOrDefault (.available p) = p := rfl
  have part1 : (∀ c ∈ lay.children, c.bounds.contains p = false) →
      press_body tb lay (.available p) = .ok (tb, .ignored, none) := by
    intro hout
    have hnone : position (fun b => b)
        (List.map (fun l => l.bounds.contains p) lay.children) = none := by
      rw [position_map, position_eq_none]
      intro x hx
      simpa using hout x hx
    rw [press_body.eq_def]
    dsimp only
    rw [hpt]
    by_cases houter : lay.bounds.contains p = true
    · rw [if_pos houter, hnone]
    · rw [if_neg houter]
  refine ⟨part1, ?_⟩
  cases hany : lay.children.any (fun c => c.bounds.contains p) with
  | false =>
    have hall : ∀ c ∈ lay.children, c.bounds.contains p = false := by
      intro c hc
      by_contra hcon
      have hct : c.bounds.contains p = true := by
        revert hcon; cases c.bounds.contains p <;> simp
      have h3 : (lay.children.any fun c2 => c2.bounds.contains p) = true :=
        List.any_eq_true.mpr ⟨c, hc, hct⟩
      rw [hany] at h3
      cases h3
    rw [part1 hall]
    rfl
  | true =>
    have hex : ∃ c ∈ lay.children, c.bounds.contains p = true := by
      simpa [List.any_eq_true] using hany
    obtain ⟨c0, hc0mem, hc0⟩ := hex
    have hsome : (position (fun l => l.bounds.contains p)
        lay.children).isSome = true := position_isSome_of_mem hc0mem hc0
    cases hposc : position (fun l => l.bounds.contains p) lay.children with
    | none => rw [hposc] at hsome; cases hsome
    | some k =>
      obtain ⟨tabL, htab, htabp, -⟩ := position_spec_some hposc
      have houter : lay.bounds.contains p = true :=
        (hsub tabL (mem_of_get?_eq_some htab)).contains_mono htabp
      have hklt : k < lay.children.length := position_lt_length hposc
      have hidlt : k < tb.tab_indices.length := by omega
      obtain ⟨id, hid⟩ : ∃ id, tb.tab_indices.get? k = some id :=
        ⟨_, List.get?_eq_get hidlt⟩
      have hpos : position (fun b => b)
          (List.map (fun l => l.bounds.contains p) lay.children) = some k := by
        rw [position_map]
        exact hposc
      rw [press_body.eq_def]
      dsimp only
      rw [hpt, if_pos houter, hpos]
      dsimp only
      by_cases hoc : tb.on_close = true
      · have h2 := hclose hoc tabL (mem_of_get?_eq_some htab)
        obtain ⟨crossL, hcr⟩ : ∃ cl, tabL.children.get? 1 = some cl :=
          ⟨_, List.get?_eq_get h2⟩
        rw [if_pos hoc, htab]
        dsimp only
        rw [hcr]
        dsimp only
        rw [hid]
        rfl
      · rw [if_neg hoc, hid]
        rfl

/-- Witness for C3 at a concrete input: a press at `(60, 10)` on `tbW` and
`layW` (its layout is `EventWF`). -/
theorem c3_capture_iff_tab_hit_witness :
    ((∀ c ∈ layW.children, c.bounds.contains ⟨60, 10⟩ = false) →
        on_event tbW (.mouse (.buttonPressed .left)) layW
            (.available ⟨60, 10⟩) =
          .ok (tbW, .ignored, none)) ∧
      captures (on_event tbW (.mouse (.buttonPressed .left)) layW
          (.available ⟨60, 10⟩)) =
        layW.children.any (fun c => c.bounds.contains ⟨60, 10⟩) :=
  c3_capture_iff_tab_hit tbW (.mouse (.buttonPressed .left)) layW ⟨60, 10⟩
    rfl (by decide)

theorem zip_all_get {α : Type u} {β : Type v} {f : α × β → Bool}
    {l1 : List α} {l2 : List β} (h : (l1.zip l2).all f = true)
    {i : Nat} {x : α} {y : β}
    (hx : l1.get? i = some x) (hy : l2.get? i = some y) :
    f (x, y) = true := by
  induction l1 generalizing l2 i with
  | nil => simp at hx
  | cons a as ih =>
    cases l2 with
    | nil => simp at hy
    | cons b bs =>
      rw [List.zip_cons_cons, List.all_cons, Bool.and_eq_true] at h
      cases i with
      | zero =>
        simp only [List.get?_cons_zero, Option.some_inj] at hx hy
        subst hx
        subst hy
        exact h.1
      | succ i2 =>
        simp only [List.get?_cons_succ] at hx hy
        exact ih h.2 hx hy

/-- Claim C9: under the layout shape produced by `Widget::layout` (one
top-level child per label, a close child exactly when the close callback is
registered, label columns with the per-variant child count), neither
`on_event` nor `draw_tab` can reach an assertion failure; and a structural
mismatch does fail loudly — a tab layout with no children makes `draw_tab`
fail with the label-layout assertion, and a hit tab without a second child
makes `on_event` fail with the close-layout assertion when the close
callback is registered. -/
theorem c9_structural_asserts {TabId : Type} (tb : TabBar TabId)
    (lay : Layout)
    (hshape : layoutShapeChk tb lay = true)
    (hlen : tb.tab_indices.length = tb.tab_labels.length) :
    (∀ event cursor, ∃ st m,
        on_event tb event lay cursor = .ok (tb, st, m)) ∧
      (∀ i lab tabL, tb.tab_labels.get? i = some lab →
          lay.children.get? i = some tabL → draw_tab lab tabL = .ok ()) ∧
      (∀ lab b, draw_tab lab (.node b []) =
        .error "Graphics: Layout should have a label layout") ∧
      (∀ (tb2 : TabBar TabId) (b r : Rectangle) (q : Point),
        tb2.on_close = true → b.contains q = true → r.contains q = true →
        on_event tb2 (.mouse (.buttonPressed .left))
            (.node b [.node r []]) (.available q) =
          .error "Native: Layout should have a close layout") := by
  simp only [layoutShapeChk, Bool.and_eq_true, beq_iff_eq] at hshape
  obtain ⟨hcl, hall⟩ := hshape
  have hall2 : ((tb.tab_labels.zip lay.children).all
      fun pair => tabShapeChk tb.on_close pair.1 pair.2) = true := by
    rw [List.all_eq_true]
    intro pair hpair
    have := List.all_eq_true.mp hall pair hpair
    simpa using this
  have hdraw : ∀ i lab tabL, tb.tab_labels.get? i = some lab →
      lay.children.get? i = some tabL → draw_tab lab tabL = .ok () := by
    intro i lab tabL hlab htab
    have hts : tabShapeChk tb.on_close lab tabL = true := by
      have := zip_all_get hall2 hlab htab
      simpa using this
    simp only [tabShapeChk, Bool.and_eq_true, beq_iff_eq] at hts
    obtain ⟨hlen2, hmatch⟩ := hts
    cases hg0 : tabL.children.get? 0 with
    | none => rw [hg0] at hmatch; cases hmatch
    | some labL =>
      rw [hg0] at hmatch
      have hlc : labL.children.length = labelChildCount lab := by
        simpa using hmatch
      rw [draw_tab.eq_def]
      rw [hg0]
      dsimp only
      cases lab with
      | icon i0 =>
        obtain ⟨cL, hc0⟩ : ∃ c1, labL.children.get? 0 = some c1 :=
          ⟨_, List.get?_eq_get (by simp [hlc, labelChildCount])⟩
        rw [hc0]
      | text s0 =>
        obtain ⟨cL, hc0⟩ : ∃ c1, labL.children.get? 0 = some c1 :=
          ⟨_, List.get?_eq_get (by simp [hlc, labelChildCount])⟩
        rw [hc0]
      | iconText i0 s0 =>
        obtain ⟨cL, hc0⟩ : ∃ c1, labL.children.get? 0 = some c1 :=
          ⟨_, List.get?_eq_get (by simp [hlc, labelChildCount])⟩
        obtain ⟨cL2, hc1⟩ : ∃ c1, labL.children.get? 1 = some c1 :=
          ⟨_, List.get?_eq_get (by simp [hlc, labelChildCount])⟩
        rw [hc0]
        dsimp only
        rw [hc1]
  have haux : ∀ cursor, ∃ st m,
      press_body tb lay cursor = .ok (tb, st, m) := by
    intro cursor
    by_cases houter : lay.bounds.contains cursor.positionOrDefault = true
    case neg =>
      refine ⟨.ignored, none, ?_⟩
      rw [press_body.eq_def]
      dsimp only
      rw [if_neg houter]
    case pos =>
      cases hpos : position (fun b => b)
          (List.map (fun l => l.bounds.contains cursor.positionOrDefault)
            lay.children) with
      | none =>
        refine ⟨.ignored, none, ?_⟩
        rw [press_body.eq_def]
        dsimp only
        rw [if_pos houter, hpos]
      | some k =>
        have hklt : k < lay.children.length := by
          have := position_lt_length hpos
          simpa using this
        obtain ⟨tabL, htab⟩ : ∃ t, lay.children.get? k = some t :=
          ⟨_, List.get?_eq_get hklt⟩
        have hklab : k < tb.tab_labels.length := by omega
        obtain ⟨lab, hlab⟩ : ∃ lab, tb.tab_labels.get? k = some lab :=
          ⟨_, List.get?_eq_get hklab⟩
        have hkid : k < tb.tab_indices.length := by omega
        obtain ⟨id, hid⟩ : ∃ id, tb.tab_indices.get? k = some id :=
          ⟨_, List.get?_eq_get hkid⟩
        have hts : tabShapeChk tb.on_close lab tabL = true := by
          have := zip_all_get hall2 hlab htab
          simpa using this
        simp only [tabShapeChk, Bool.and_eq_true, beq_iff_eq] at hts
        obtain ⟨hlen2, -⟩ := hts
        by_cases hoc : tb.on_close = true
        · have h2 : 1 < tabL.children.length := by
            rw [hoc] at hlen2
            simp at hlen2
            omega
          obtain ⟨crossL, hcr⟩ : ∃ cl, tabL.children.get? 1 = some cl :=
            ⟨_, List.get?_eq_get h2⟩
          refine ⟨.captured,
            some (if crossL.bounds.contains cursor.positionOrDefault then
              Msg.close id else Msg.select id), ?_⟩
          rw [press_body.eq_def]
          dsimp only
          rw [if_pos houter, hpos]
          dsimp only
          rw [if_pos hoc, htab]
          dsimp only
          rw [hcr]
          dsimp only
          rw [hid]
        · refine ⟨.captured, some (.select id), ?_⟩
          rw [press_body.eq_def]
          dsimp only
          rw [if_pos houter, hpos]
          dsimp only
          rw [if_neg hoc, hid]
  refine ⟨?_, hdraw, ?_, ?_⟩
  · intro event cursor
    by_cases hev : event.isPress = true
    · obtain ⟨st, m, hpb⟩ := haux cursor
      refine ⟨st, m, ?_⟩
      rw [on_event_press tb lay cursor hev]
      exact hpb
    · refine ⟨.ignored, none, ?_⟩
      cases event with
      | mouse me =>
        cases me with
        | buttonPressed b =>
          cases b with
          | left => exact absurd rfl hev
          | right => rfl
          | middle => rfl
          | other => rfl
        | other => rfl
      | touch te =>
        cases te with
        | fingerPressed => exact absurd rfl hev
        | other => rfl
      | other => rfl
  · intro lab b
    rfl
  · intro tb2 b r q hoc2 hb hr
    have hpt : Cursor.positionOrDefault (.available q) = q := rfl
    rw [@on_event_press TabId tb2 (.mouse (.buttonPressed .left))
      (.node b [.node r []]) (.available q) rfl]
    simp only [press_body, hpt, Layout.bounds, Layout.children,
      List.map_cons, List.map_nil, hb, hr, hoc2, position, if_true,
      List.get?_cons_zero, List.get?_cons_succ, List.get?_nil]

/-- Witness for C9 at a concrete input: `tbC` (close callback registered)
with its matching laid-out tree `layC`. -/
theorem c9_structural_asserts_witness :
    (∀ event cursor, ∃ st m,
        on_event tbC event layC cursor = .ok (tbC, st, m)) ∧
      (∀ i lab tabL, tbC.tab_labels.get? i = some lab →
          layC.children.get? i = some tabL → draw_tab lab tabL = .ok ()) ∧
      (∀ lab b, draw_tab lab (.node b []) =
        .error "Graphics: Layout should have a label layout") ∧
      (∀ (tb2 : TabBar Nat) (b r : Rectangle) (q : Point),
        tb2.on_close = true → b.contains q = true → r.contains q = true →
        on_event tb2 (.mouse (.buttonPressed .left))
            (.node b [.node r []]) (.available q) =
          .error "Native: Layout should have a close layout") :=
  c9_structural_asserts tbC layC (by decide) rfl

end IcedAw
